import Mathlib

/-!
Verification of the ACES power price scraper (src/scraper.py) against its
natural-language specification.

The development shallowly embeds the pure/data-flow core of the script:

* the filename codec `parse_filename` (scraper.py lines 294-307),
* the row normalizer `process_csv_content` (lines 309-362), with pandas cell
  values modelled by `PyVal` and the read_csv outcome passed in as data,
* the per-file orchestration loop of `main` (lines 364-459), with the three
  download strategies and the store calls modelled as environment-supplied
  outcomes (`FileEnv`), and the store interactions reified as a trace of
  `StoreEffect`s.

Python exceptions are modelled with `Option`/`Except`/`Bool` flags; machine
floats are modelled as exact rationals (the script performs no arithmetic on
prices, it only passes parsed values through).
-/

/-- Calendar timestamp as produced by Python `datetime(...)`
(scraper.py lines 298-301 and 328-331). Validity of the fields is enforced by
`mkDatetime`, which models the constructor's range checks. -/
structure Datetime where
  year : Int
  month : Int
  day : Int
  hour : Int
  minute : Int
  second : Int
deriving DecidableEq

/-- Leap-year rule used by Python `datetime`. -/
def isLeapYear (y : Int) : Bool := (y % 4 == 0 && y % 100 != 0) || y % 400 == 0

/-- Number of days of month `m` in year `y`, as validated by Python `datetime`. -/
def daysInMonth (y m : Int) : Int :=
  if m = 2 then (if isLeapYear y then 29 else 28)
  else if m = 4 ∨ m = 6 ∨ m = 9 ∨ m = 11 then 30
  else 31

/-- Python `datetime(y, mo, d, h, mi, s)`: `some` on success; `none` models the
`ValueError` the constructor raises when a field is out of range. -/
def mkDatetime (y mo d h mi s : Int) : Option Datetime :=
  if 1 ≤ y ∧ y ≤ 9999 ∧ 1 ≤ mo ∧ mo ≤ 12 ∧ 1 ≤ d ∧ d ≤ daysInMonth y mo ∧
     0 ≤ h ∧ h ≤ 23 ∧ 0 ≤ mi ∧ mi ≤ 59 ∧ 0 ≤ s ∧ s ≤ 59
  then some ⟨y, mo, d, h, mi, s⟩ else none

/-- ASCII decimal digit, modelling the regex class `\d` (codepoints 48-57). -/
def isDig (c : Char) : Bool := 48 ≤ c.toNat && c.toNat ≤ 57

/-- Value of a digit string read left to right, modelling Python `int` applied
to a string of decimal digits (scraper.py line 304: `int(version_str)`). -/
def digitsVal (l : List Char) : Nat :=
  l.foldl (fun a c => a * 10 + (c.toNat - 48)) 0

/-- Match a literal character sequence `p` at the front of `s`, returning the
remainder.  Building block for the regex `re.match` of scraper.py line 295. -/
def strip : List Char → List Char → Option (List Char)
  | [], s => some s
  | _ :: _, [] => none
  | p :: ps, c :: cs => if c = p then strip ps cs else none

/-- Match exactly `n` ASCII digits at the front of `s`, returning them and the
remainder; models the regex piece `\d{14}`. -/
def takeDigits : Nat → List Char → Option (List Char × List Char)
  | 0, s => some ([], s)
  | _ + 1, [] => none
  | n + 1, c :: cs =>
    if isDig c then
      match takeDigits n cs with
      | some (ds, r) => some (c :: ds, r)
      | none => none
    else none

/-- The alternation `(da|rt)` of the filename regex, tried left to right. -/
def matchClass (s : List Char) : Option (String × List Char) :=
  match strip "da".toList s with
  | some r => some ("da", r)
  | none =>
    match strip "rt".toList s with
    | some r => some ("rt", r)
    | none => none

/-- `re.match(r'NIPS\.WVPA_(da|rt)_price_forecast_(\d{14})\.csv', filename)`
(scraper.py line 295).  As with Python `re.match`, the pattern is anchored at
the start of the string only: characters after the final `.csv` are allowed
and ignored.  Returns the two capture groups (class, 14-digit string). -/
def matchPattern (s : List Char) : Option (String × List Char) := do
  let r1 ← strip "NIPS.WVPA_".toList s
  let p ← matchClass r1
  let r3 ← strip "_price_forecast_".toList p.2
  let q ← takeDigits 14 r3
  let _ ← strip ".csv".toList q.2
  pure (p.1, q.1)

/-- A string conforming to the filename pattern, followed by arbitrary extra
characters `rest`. -/
def patList (cls : String) (ds rest : List Char) : List Char :=
  "NIPS.WVPA_".toList ++ cls.toList ++ "_price_forecast_".toList ++ ds ++
    ".csv".toList ++ rest

/-- A string that begins with the filename pattern (what `re.match` accepts). -/
def StartsWithPattern (s : List Char) : Prop :=
  ∃ cls ds rest, (cls = "da" ∨ cls = "rt") ∧ ds.length = 14 ∧
    (∀ c ∈ ds, isDig c = true) ∧ s = patList cls ds rest

/-- A string that is exactly the filename pattern with nothing after `.csv`
(the spec's reading: "exactly, with no extra characters"). -/
def ExactPattern (s : List Char) : Prop :=
  ∃ cls ds, (cls = "da" ∨ cls = "rt") ∧ ds.length = 14 ∧
    (∀ c ∈ ds, isDig c = true) ∧ s = patList cls ds []

/-- The structured identity extracted from a filename
(scraper.py lines 302-306). -/
structure FileIdentity where
  ftype : String
  version : Nat
  forecast_timestamp : Datetime
deriving DecidableEq

/-- Positional decode of the 14-digit capture, modelling
`datetime(int(vs[0:4]), int(vs[4:6]), int(vs[6:8]), int(vs[8:10]),
int(vs[10:12]), int(vs[12:14]))` (scraper.py lines 298-301). -/
def dsDatetime (ds : List Char) : Option Datetime :=
  mkDatetime (digitsVal (ds.take 4)) (digitsVal ((ds.drop 4).take 2))
    (digitsVal ((ds.drop 6).take 2)) (digitsVal ((ds.drop 8).take 2))
    (digitsVal ((ds.drop 10).take 2)) (digitsVal ((ds.drop 12).take 2))

/-- `parse_filename` (scraper.py lines 294-307).  `Except.ok none` models the
Python `return None` on a non-matching name; `Except.error ()` models the
`ValueError` that `datetime(...)` raises when the matched 14 digits are not a
valid calendar timestamp (that exception is not caught inside the function). -/
def parse_filename (s : List Char) : Except Unit (Option FileIdentity) :=
  match matchPattern s with
  | none => Except.ok none
  | some (cls, ds) =>
    match dsDatetime ds with
    | none => Except.error ()
    | some dt => Except.ok (some ⟨cls, digitsVal ds, dt⟩)

theorem strip_sound : ∀ p s r : List Char, strip p s = some r → s = p ++ r := by
  intro p
  induction p with
  | nil =>
    intro s r h
    simp only [strip, Option.some.injEq] at h
    simp [h]
  | cons c ps ih =>
    intro s r h
    cases s with
    | nil => simp [strip] at h
    | cons a as =>
      simp only [strip] at h
      split at h
      · rename_i hac
        subst hac
        simpa using ih as r h
      · cases h

theorem strip_complete : ∀ p r : List Char, strip p (p ++ r) = some r := by
  intro p
  induction p with
  | nil => intro r; rfl
  | cons c ps ih => intro r; simp [strip, ih]

theorem takeDigits_sound : ∀ (n : Nat) (s ds r : List Char),
    takeDigits n s = some (ds, r) →
    s = ds ++ r ∧ ds.length = n ∧ ∀ c ∈ ds, isDig c = true := by
  intro n
  induction n with
  | zero =>
    intro s ds r h
    simp only [takeDigits, Option.some.injEq, Prod.mk.injEq] at h
    obtain ⟨h1, h2⟩ := h
    subst h1; subst h2
    simp
  | succ m ih =>
    intro s ds r h
    cases s with
    | nil => simp [takeDigits] at h
    | cons a as =>
      simp only [takeDigits] at h
      split at h
      · rename_i hd
        cases htl : takeDigits m as with
        | none => simp [htl] at h
        | some pr =>
          obtain ⟨ds0, r0⟩ := pr
          simp only [htl, Option.some.injEq, Prod.mk.injEq] at h
          obtain ⟨h1, h2⟩ := h
          obtain ⟨e1, e2, e3⟩ := ih as ds0 r0 htl
          subst h1
          subst h2
          refine ⟨by simp [e1], by simp [e2], ?_⟩
          intro c hc
          rcases List.mem_cons.mp hc with hc | hc
          · subst hc; exact hd
          · exact e3 c hc
      · cases h

theorem takeDigits_complete : ∀ (ds r : List Char),
    (∀ c ∈ ds, isDig c = true) → takeDigits ds.length (ds ++ r) = some (ds, r) := by
  intro ds
  induction ds with
  | nil => intro r _; rfl
  | cons c cs ih =>
    intro r h
    have hc : isDig c = true := h c (List.mem_cons_self c cs)
    have hcs : ∀ x ∈ cs, isDig x = true := fun x hx => h x (List.mem_cons_of_mem c hx)
    simp [takeDigits, hc, ih r hcs]

theorem matchClass_da (r : List Char) : matchClass ("da".toList ++ r) = some ("da", r) := rfl

theorem matchClass_rt (r : List Char) : matchClass ("rt".toList ++ r) = some ("rt", r) := rfl

theorem matchClass_sound (s : List Char) (cls : String) (r : List Char)
    (h : matchClass s = some (cls, r)) :
    (cls = "da" ∨ cls = "rt") ∧ s = cls.toList ++ r := by
  unfold matchClass at h
  cases hda : strip "da".toList s with
  | some r1 =>
    rw [hda] at h
    simp only [Option.some.injEq, Prod.mk.injEq] at h
    obtain ⟨h1, h2⟩ := h
    subst h1; subst h2
    exact ⟨Or.inl rfl, strip_sound _ _ _ hda⟩
  | none =>
    rw [hda] at h
    cases hrt : strip "rt".toList s with
    | some r2 =>
      rw [hrt] at h
      simp only [Option.some.injEq, Prod.mk.injEq] at h
      obtain ⟨h1, h2⟩ := h
      subst h1; subst h2
      exact ⟨Or.inr rfl, strip_sound _ _ _ hrt⟩
    | none => rw [hrt] at h; cases h

theorem matchPattern_complete (cls : String) (ds rest : List Char)
    (hcls : cls = "da" ∨ cls = "rt") (hlen : ds.length = 14)
    (hdig : ∀ c ∈ ds, isDig c = true) :
    matchPattern (patList cls ds rest) = some (cls, ds) := by
  have htd : takeDigits 14 (ds ++ ('.' :: 'c' :: 's' :: 'v' :: rest)) =
      some (ds, '.' :: 'c' :: 's' :: 'v' :: rest) := by
    rw [← hlen]
    exact takeDigits_complete ds _ hdig
  rcases hcls with h | h <;> subst h <;>
    simp +decide [matchPattern, patList, strip, matchClass, htd]

theorem matchPattern_sound (s : List Char) (cls : String) (ds : List Char)
    (h : matchPattern s = some (cls, ds)) :
    ∃ rest, (cls = "da" ∨ cls = "rt") ∧ ds.length = 14 ∧
      (∀ c ∈ ds, isDig c = true) ∧ s = patList cls ds rest := by
  simp only [matchPattern, bind, Option.bind_eq_some, Option.pure_def,
    Option.some.injEq, Prod.mk.injEq] at h
  obtain ⟨r1, h1, p, h2, r3, h3, q, h4, r5, h5, hc, hd⟩ := h
  obtain ⟨cls0, r2⟩ := p
  obtain ⟨ds0, r4⟩ := q
  dsimp only at hc hd h3 h5
  subst hc
  subst hd
  obtain ⟨hcls, hr1⟩ := matchClass_sound r1 cls0 r2 h2
  obtain ⟨hsplit, hlen, hdig⟩ := takeDigits_sound 14 r3 ds0 r4 h4
  refine ⟨r5, hcls, hlen, hdig, ?_⟩
  rw [strip_sound _ _ _ h1, hr1, strip_sound _ _ _ h3, hsplit,
    strip_sound _ _ _ h5]
  simp [patList]

theorem foldlDigits_acc (l : List Char) : ∀ a : Nat,
    l.foldl (fun x c => x * 10 + (c.toNat - 48)) a = a * 10 ^ l.length + digitsVal l := by
  induction l with
  | nil => intro a; simp [digitsVal]
  | cons c cs ih =>
    intro a
    have hl : digitsVal (c :: cs) = (c.toNat - 48) * 10 ^ cs.length + digitsVal cs := by
      show List.foldl _ (0 * 10 + (c.toNat - 48)) cs = _
      rw [ih]
      ring
    show List.foldl _ (a * 10 + (c.toNat - 48)) cs = a * 10 ^ (cs.length + 1) + digitsVal (c :: cs)
    rw [ih, hl]
    ring

theorem digitsVal_cons (c : Char) (l : List Char) :
    digitsVal (c :: l) = (c.toNat - 48) * 10 ^ l.length + digitsVal l := by
  show List.foldl _ (0 * 10 + (c.toNat - 48)) l = _
  rw [foldlDigits_acc]
  ring

theorem digitsVal_lt : ∀ l : List Char, (∀ c ∈ l, isDig c = true) →
    digitsVal l < 10 ^ l.length := by
  intro l
  induction l with
  | nil => intro _; simp [digitsVal]
  | cons c cs ih =>
    intro h
    have hc : isDig c = true := h c (List.mem_cons_self c cs)
    have hd : c.toNat - 48 ≤ 9 := by
      simp only [isDig, Bool.and_eq_true, decide_eq_true_eq] at hc
      omega
    have hcs : digitsVal cs < 10 ^ cs.length :=
      ih (fun x hx => h x (List.mem_cons_of_mem c hx))
    rw [digitsVal_cons]
    simp only [List.length_cons]
    calc (c.toNat - 48) * 10 ^ cs.length + digitsVal cs
        < (c.toNat - 48) * 10 ^ cs.length + 10 ^ cs.length := by omega
      _ = (c.toNat - 48 + 1) * 10 ^ cs.length := by ring
      _ ≤ 10 * 10 ^ cs.length := Nat.mul_le_mul_right _ (by omega)
      _ = 10 ^ (cs.length + 1) := by ring

theorem digit_place_inj (d1 d2 v1 v2 B : Nat) (hB : 0 < B) (h1 : v1 < B) (h2 : v2 < B)
    (heq : d1 * B + v1 = d2 * B + v2) : d1 = d2 ∧ v1 = v2 := by
  have e0 : v1 + B * d1 = v2 + B * d2 := by
    calc v1 + B * d1 = d1 * B + v1 := by ring
      _ = d2 * B + v2 := heq
      _ = v2 + B * d2 := by ring
  have e1 : (v1 + B * d1) / B = d1 := by
    rw [Nat.add_mul_div_left _ _ hB, Nat.div_eq_of_lt h1, Nat.zero_add]
  have e2 : (v2 + B * d2) / B = d2 := by
    rw [Nat.add_mul_div_left _ _ hB, Nat.div_eq_of_lt h2, Nat.zero_add]
  have hd : d1 = d2 := by rw [← e1, ← e2, e0]
  subst hd
  exact ⟨rfl, Nat.add_left_cancel heq⟩

theorem digitsVal_inj : ∀ l1 l2 : List Char, l1.length = l2.length →
    (∀ c ∈ l1, isDig c = true) → (∀ c ∈ l2, isDig c = true) →
    digitsVal l1 = digitsVal l2 → l1 = l2 := by
  intro l1
  induction l1 with
  | nil =>
    intro l2 hlen _ _ _
    cases l2 with
    | nil => rfl
    | cons e es => simp at hlen
  | cons c cs ih =>
    intro l2 hlen h1 h2 heq
    cases l2 with
    | nil => simp at hlen
    | cons e es =>
      have hlen' : cs.length = es.length := by simpa using hlen
      rw [digitsVal_cons, digitsVal_cons, hlen'] at heq
      have hv1 : digitsVal cs < 10 ^ es.length := by
        rw [← hlen']
        exact digitsVal_lt cs (fun x hx => h1 x (List.mem_cons_of_mem c hx))
      have hv2 : digitsVal es < 10 ^ es.length :=
        digitsVal_lt es (fun x hx => h2 x (List.mem_cons_of_mem e hx))
      have hB : 0 < 10 ^ es.length := Nat.pos_pow_of_pos _ (by omega)
      obtain ⟨hd, hv⟩ := digit_place_inj _ _ _ _ _ hB hv1 hv2 heq
      have hc48 : 48 ≤ c.toNat ∧ c.toNat ≤ 57 := by
        have hx := h1 c (List.mem_cons_self c cs)
        simp only [isDig, Bool.and_eq_true, decide_eq_true_eq] at hx
        exact hx
      have he48 : 48 ≤ e.toNat ∧ e.toNat ≤ 57 := by
        have hx := h2 e (List.mem_cons_self e es)
        simp only [isDig, Bool.and_eq_true, decide_eq_true_eq] at hx
        exact hx
      have hnat : c.toNat = e.toNat := by omega
      have hce : c = e := Char.eq_of_val_eq (UInt32.ext hnat)
      rw [hce, ih es hlen' (fun x hx => h1 x (List.mem_cons_of_mem c hx))
        (fun x hx => h2 x (List.mem_cons_of_mem e hx)) hv]

theorem mkDatetime_some (y mo d h mi s : Int) (t : Datetime)
    (ht : mkDatetime y mo d h mi s = some t) : t = ⟨y, mo, d, h, mi, s⟩ := by
  unfold mkDatetime at ht
  split at ht
  · injection ht with h2
    exact h2.symm
  · cases ht

theorem exactPattern_length (s : List Char) (h : ExactPattern s) : s.length = 46 := by
  obtain ⟨cls, ds, hcls, hlen, _, hs⟩ := h
  subst hs
  have e1 : ("NIPS.WVPA_".toList).length = 10 := rfl
  have e2 : ("_price_forecast_".toList).length = 16 := rfl
  have e3 : (".csv".toList).length = 4 := rfl
  rcases hcls with h | h <;> subst h <;>
    simp [patList, e1, e2, e3, hlen]

/-- C3 counterexample: on a string that matches the filename pattern but whose
14 digits do not form a valid calendar date (month 13), `parse_filename` does
not return an identity or `None` — it raises `ValueError` from `datetime(...)`
(modelled by `Except.error ()`), contradicting "total ... never raises". -/
theorem c3_counterexample :
    parse_filename "NIPS.WVPA_da_price_forecast_20241399000000.csv".toList =
      Except.error () := rfl

/-- C3 (amended): `parse_filename` is a pure function that returns `None` for
every string not matching the pattern, returns an identity for a matching
string whose 14 digits form a valid calendar timestamp, and raises
`ValueError` (modelled as `Except.error ()`) exactly when the string matches
but the digits are not a valid calendar timestamp. -/
theorem c3_amended_parse_behavior (s : List Char) :
    (matchPattern s = none → parse_filename s = Except.ok none) ∧
    (∀ cls ds, matchPattern s = some (cls, ds) →
      (dsDatetime ds = none → parse_filename s = Except.error ()) ∧
      (∀ dt, dsDatetime ds = some dt →
        parse_filename s = Except.ok (some ⟨cls, digitsVal ds, dt⟩))) := by
  refine ⟨?_, ?_⟩
  · intro h
    simp [parse_filename, h]
  · intro cls ds h
    refine ⟨?_, ?_⟩
    · intro hd
      simp [parse_filename, h, hd]
    · intro dt hd
      simp [parse_filename, h, hd]

/-- Witness for the amended C3, at the invalid date 2024-02-30. -/
theorem c3_amended_witness :
    parse_filename "NIPS.WVPA_rt_price_forecast_20240230120000.csv".toList =
      Except.error () := by
  have h := (c3_amended_parse_behavior
      "NIPS.WVPA_rt_price_forecast_20240230120000.csv".toList).2
    "rt" "20240230120000".toList rfl
  exact h.1 rfl

/-- C4 counterexample: a filename with trailing extra characters after `.csv`
does not conform to the pattern exactly, yet `parse_filename` still returns an
identity, because `re.match` is not anchored at the end of the string. -/
theorem c4_counterexample :
    ¬ ExactPattern "NIPS.WVPA_da_price_forecast_20240115093000.csv.bak".toList ∧
    parse_filename "NIPS.WVPA_da_price_forecast_20240115093000.csv.bak".toList =
      Except.ok (some ⟨"da", 20240115093000, ⟨2024, 1, 15, 9, 30, 0⟩⟩) := by
  constructor
  · intro h
    exact absurd (exactPattern_length _ h) (by decide)
  · rfl

/-- C4 (amended): `parse_filename` returns `None` for every string that does
not START with the pattern; trailing characters after `.csv` are permitted
because `re.match` anchors only at the beginning of the string. -/
theorem c4_amended_nonprefix_none (s : List Char) (h : ¬ StartsWithPattern s) :
    parse_filename s = Except.ok none := by
  cases hm : matchPattern s with
  | none => simp [parse_filename, hm]
  | some p =>
    obtain ⟨cls, ds⟩ := p
    obtain ⟨rest, hcls, hlen, hdig, hs⟩ := matchPattern_sound s cls ds hm
    exact absurd ⟨cls, ds, rest, hcls, hlen, hdig, hs⟩ h

/-- Witness for the amended C4. -/
theorem c4_amended_witness : parse_filename "hello.csv".toList = Except.ok none := by
  apply c4_amended_nonprefix_none
  intro h
  obtain ⟨cls, ds, rest, hcls, hlen, hdig, hs⟩ := h
  have hmc := matchPattern_complete cls ds rest hcls hlen hdig
  rw [← hs] at hmc
  have h0 : matchPattern "hello.csv".toList = none := rfl
  rw [h0] at hmc
  cases hmc

/-- C5: for every valid filename (the exact pattern with a valid calendar
timestamp), the parsed `version` is the integer value of the 14-digit
sequence, that sequence is uniquely recoverable from `version` (round-trip),
and `forecast_timestamp` equals the digits read positionally as
YYYY MM DD HH MM SS. -/
theorem c5_version_roundtrip_and_timestamp (cls : String) (ds : List Char) (dt : Datetime)
    (hcls : cls = "da" ∨ cls = "rt") (hlen : ds.length = 14)
    (hdig : ∀ c ∈ ds, isDig c = true) (hdt : dsDatetime ds = some dt) :
    parse_filename (patList cls ds []) = Except.ok (some ⟨cls, digitsVal ds, dt⟩) ∧
    dt = ⟨(digitsVal (ds.take 4) : Int), (digitsVal ((ds.drop 4).take 2) : Int),
          (digitsVal ((ds.drop 6).take 2) : Int), (digitsVal ((ds.drop 8).take 2) : Int),
          (digitsVal ((ds.drop 10).take 2) : Int), (digitsVal ((ds.drop 12).take 2) : Int)⟩ ∧
    (∀ ds2 : List Char, ds2.length = 14 → (∀ c ∈ ds2, isDig c = true) →
      digitsVal ds2 = digitsVal ds → ds2 = ds) := by
  refine ⟨?_, ?_, ?_⟩
  · have hm := matchPattern_complete cls ds [] hcls hlen hdig
    simp [parse_filename, hm, hdt]
  · exact mkDatetime_some _ _ _ _ _ _ dt hdt
  · intro ds2 h1 h2 h3
    exact digitsVal_inj ds2 ds (h1.trans hlen.symm) h2 hdig h3

/-- Witness for C5 at `..._20240115093000.csv`, giving 2024-01-15 09:30:00. -/
theorem c5_witness :
    parse_filename (patList "da" "20240115093000".toList []) =
      Except.ok (some ⟨"da", 20240115093000, ⟨2024, 1, 15, 9, 30, 0⟩⟩) := by
  have h := c5_version_roundtrip_and_timestamp "da" "20240115093000".toList
    ⟨2024, 1, 15, 9, 30, 0⟩ (Or.inl rfl) (by decide) (by decide) rfl
  exact h.1

/-- A pandas cell value as seen by the row loop of `process_csv_content`:
a string, a number (floats are modelled as exact rationals; the script only
passes price values through, it never computes with them), or a missing
value (NaN). -/
inductive PyVal where
  | pstr (s : String)
  | pnum (q : ℚ)
  | pna
deriving DecidableEq

/-- A dataframe row as an association list from column name to cell value
(a pandas Series indexed by the column names). -/
abbrev Row := List (String × PyVal)

/-- `row[k]`: first binding of column `k`; `none` models the `KeyError` /
absence tested by `k in row` (scraper.py lines 324, 335, 337, 347). -/
def rlookup (row : Row) (k : String) : Option PyVal :=
  match row with
  | [] => none
  | (k2, v) :: rest => if k2 = k then some v else rlookup rest k

/-- Python `str(...)` on a cell (scraper.py lines 324 and 347).  The rendering
of numbers is modelled loosely (only its stringness matters to the script:
a numeric or missing date cell never splits into three integer parts, so such
rows are dropped in the model exactly as in Python). -/
def pyStr : PyVal → String
  | PyVal.pstr s => s
  | PyVal.pnum q => "#num" ++ toString q.num
  | PyVal.pna => "nan"

/-- Python `int(...)` on a string: optional sign followed by digits, else
`ValueError` (`none`).  Models `int(date_parts[i])` (scraper.py line 329). -/
def pyIntChars (l : List Char) : Option Int :=
  match l with
  | '-' :: rest =>
    if rest ≠ [] ∧ rest.all isDig then some (-(digitsVal rest : Int)) else none
  | '+' :: rest =>
    if rest ≠ [] ∧ rest.all isDig then some ((digitsVal rest : Int)) else none
  | _ => if l ≠ [] ∧ l.all isDig then some ((digitsVal l : Int)) else none

/-- Python `int(...)` on a cell (scraper.py line 325, `int(row['he'])`):
strings are parsed, numbers are truncated toward zero, NaN raises. -/
def pyInt : PyVal → Option Int
  | PyVal.pstr s => pyIntChars s.toList
  | PyVal.pnum q => some (Int.tdiv q.num (q.den : Int))
  | PyVal.pna => none

/-- Unsigned decimal numeral: digits, optionally followed by a point and
fractional digits (exponents are not modelled; no claim depends on them). -/
def parseUDec (l : List Char) : Option ℚ :=
  match l.span isDig with
  | (ip, []) => if ip = [] then none else some ((digitsVal ip : ℚ))
  | (ip, '.' :: fp) =>
    if (ip ≠ [] ∨ fp ≠ []) ∧ fp.all isDig then
      some ((digitsVal ip : ℚ) + (digitsVal fp : ℚ) / (10 : ℚ) ^ fp.length)
    else none
  | _ => none

/-- Python `float(...)` on a string: signed decimal numeral or `ValueError`. -/
def parseDecimal (l : List Char) : Option ℚ :=
  match l with
  | '-' :: rest => (parseUDec rest).map Neg.neg
  | '+' :: rest => parseUDec rest
  | _ => parseUDec l

/-- Python `float(...)` on a cell (scraper.py lines 336, 338): numbers pass
through, strings are parsed (`none` models the `ValueError` on a
non-numeric string). -/
def pyFloat : PyVal → Option ℚ
  | PyVal.pstr s => parseDecimal s.toList
  | PyVal.pnum q => some q
  | PyVal.pna => none

/-- `pd.notna` (scraper.py lines 335, 337). -/
def pdNotna : PyVal → Bool
  | PyVal.pna => false
  | _ => true

/-- Python `date_str.split('-')` (scraper.py line 327). -/
def splitOnDash : List Char → List (List Char)
  | [] => [[]]
  | c :: rest =>
    if c = '-' then [] :: splitOnDash rest
    else
      match splitOnDash rest with
      | [] => [[c]]
      | h :: t => (c :: h) :: t

/-- The canonical persisted row built at scraper.py lines 340-351. -/
structure ForecastRow where
  target_timestamp : Datetime
  hour : Int
  price : Option ℚ
  congestion_price : Option ℚ
  loss_price : Option ℚ
  energy_price : Option ℚ
  location : String
  forecast_timestamp : Datetime
  version : Nat
  filename : String
deriving DecidableEq

/-- The `{**file_info, 'filename': ...}` dict passed to `process_csv_content`
(scraper.py line 414). -/
structure FileInfo where
  ftype : String
  version : Nat
  forecast_timestamp : Datetime
  filename : String
deriving DecidableEq

/-- Price of the `kw` fallback branch (scraper.py lines 337-338).  The outer
`Option` is the per-row exception; the inner one is the nullable price. -/
def tryKwPrice (row : Row) : Option (Option ℚ) :=
  match rlookup row "kw" with
  | some v => if pdNotna v then (pyFloat v).map some else some none
  | none => some none

/-- `price_value` computation (scraper.py lines 334-338): `mw` preferred over
`kw`; a present non-NA value that fails `float(...)` raises (outer `none`);
absent or NA values leave the price `None` (inner `none`). -/
def computePrice (row : Row) : Option (Option ℚ) :=
  match rlookup row "mw" with
  | some v => if pdNotna v then (pyFloat v).map some else tryKwPrice row
  | none => tryKwPrice row

/-- `str(row['node']) if 'node' in row else 'NIPS.WVPA'` (scraper.py
line 347). -/
def locOf (row : Row) : String :=
  match rlookup row "node" with
  | some v => pyStr v
  | none => "NIPS.WVPA"

/-- One iteration of the row loop of `process_csv_content` (scraper.py lines
321-354).  `none` models the per-row `except ... continue` (row dropped);
the steps mirror the source: read and stringify `date`, read `he` as int,
split the date on `-`, parse the first three parts as ints, build
`datetime(y, mo, d, he - 1, 0, 0)`, compute the price, then assemble the
record stamped with the file's metadata. -/
def processRow (fi : FileInfo) (row : Row) : Option ForecastRow :=
  match rlookup row "date" with
  | none => none
  | some dcell =>
    match rlookup row "he" with
    | none => none
    | some hcell =>
      match pyInt hcell with
      | none => none
      | some hour =>
        match splitOnDash (pyStr dcell).toList with
        | sy :: sm :: sd :: _ =>
          (match pyIntChars sy, pyIntChars sm, pyIntChars sd with
           | some y, some mo, some d =>
             (match mkDatetime y mo d (hour - 1) 0 0 with
              | none => none
              | some target =>
                match computePrice row with
                | none => none
                | some price =>
                  some { target_timestamp := target, hour := hour, price := price,
                         congestion_price := none, loss_price := none,
                         energy_price := none, location := locOf row,
                         forecast_timestamp := fi.forecast_timestamp,
                         version := fi.version, filename := fi.filename })
           | _, _, _ => none)
        | _ => none

/-- `df.columns = df.columns.str.lower()` (scraper.py line 316), applied to a
row's index.  Lowercasing is done character-wise on the key. -/
def lowerRow (row : Row) : Row :=
  row.map (fun kv => (String.mk (kv.1.toList.map Char.toLower), kv.2))

/-- `process_csv_content` (scraper.py lines 309-362).  The pandas `read_csv`
outcome on the downloaded bytes is supplied as data: `Except.error ()` models
any exception of the outer `try` (unreadable CSV), which the function catches
and turns into `[]`; otherwise every row is processed and rows whose
processing raised are dropped (`filterMap`). -/
def process_csv_content (csv : Except Unit (List Row)) (fi : FileInfo) :
    List ForecastRow :=
  match csv with
  | Except.error _ => []
  | Except.ok rows => (rows.map lowerRow).filterMap (processRow fi)

theorem computePrice_mw (row : Row) (mv : PyVal) (q : ℚ)
    (hmw : rlookup row "mw" = some mv) (hna : pdNotna mv = true)
    (hfl : pyFloat mv = some q) : computePrice row = some (some q) := by
  simp [computePrice, hmw, hna, hfl]

theorem computePrice_raise (row : Row) (mv : PyVal)
    (hmw : rlookup row "mw" = some mv) (hna : pdNotna mv = true)
    (hfl : pyFloat mv = none) : computePrice row = none := by
  simp [computePrice, hmw, hna, hfl]

/-- Column `k` is absent from the row, or present with a NaN value. -/
def MissingOrNa (row : Row) (k : String) : Prop :=
  rlookup row k = none ∨ rlookup row k = some PyVal.pna

theorem computePrice_null (row : Row) (h1 : MissingOrNa row "mw")
    (h2 : MissingOrNa row "kw") : computePrice row = some none := by
  rcases h1 with h1 | h1 <;> rcases h2 with h2 | h2 <;>
    simp [computePrice, tryKwPrice, h1, h2, pdNotna]

theorem processRow_success (fi : FileInfo) (row : Row) (dstr : String)
    (hcell : PyVal) (sy sm sd : List Char) (tl : List (List Char))
    (hour y mo d : Int) (target : Datetime) (price : Option ℚ)
    (h1 : rlookup row "date" = some (PyVal.pstr dstr))
    (h2 : rlookup row "he" = some hcell)
    (h3 : pyInt hcell = some hour)
    (h4 : splitOnDash dstr.toList = sy :: sm :: sd :: tl)
    (h5 : pyIntChars sy = some y) (h6 : pyIntChars sm = some mo)
    (h7 : pyIntChars sd = some d)
    (h8 : mkDatetime y mo d (hour - 1) 0 0 = some target)
    (h9 : computePrice row = some price) :
    processRow fi row = some ⟨target, hour, price, none, none, none, locOf row,
      fi.forecast_timestamp, fi.version, fi.filename⟩ := by
  have h4d : splitOnDash dstr.data = sy :: sm :: sd :: tl := h4
  simp [processRow, pyStr, h1, h2, h3, h4, h4d, h5, h6, h7, h8, h9]

theorem processRow_none_of_price (fi : FileInfo) (row : Row)
    (h9 : computePrice row = none) : processRow fi row = none := by
  unfold processRow
  repeat' split
  all_goals first | rfl | simp_all

theorem processRow_shape (fi : FileInfo) (row : Row) (r : ForecastRow)
    (h : processRow fi row = some r) :
    r.location = locOf row ∧ r.forecast_timestamp = fi.forecast_timestamp ∧
    r.version = fi.version ∧ r.filename = fi.filename := by
  unfold processRow at h
  repeat' split at h
  all_goals simp at h
  all_goals subst h
  all_goals exact ⟨rfl, rfl, rfl, rfl⟩

/-- C7: for a structured-variant row whose `date` cell reads `(y, mo, d)` and
whose `he` cell reads `hour`, the produced target timestamp is midnight of
that date plus `(he - 1)` hours — the same calendar date with hour field
`he - 1` and zero minutes/seconds (`mkDatetime` enforces `0 ≤ he - 1 ≤ 23`,
so no day rollover is possible) — and a present, non-NA, numerically
parseable `mw` value is taken as the price regardless of the `kw` column,
which is left completely unconstrained here and hence ignored. -/
theorem c7_structured_target_and_mw (fi : FileInfo) (row : Row) (dstr : String)
    (hcell mv : PyVal) (sy sm sd : List Char) (tl : List (List Char))
    (hour y mo d : Int) (q : ℚ) (dt : Datetime)
    (h1 : rlookup row "date" = some (PyVal.pstr dstr))
    (h2 : rlookup row "he" = some hcell)
    (h3 : pyInt hcell = some hour)
    (h4 : splitOnDash dstr.toList = sy :: sm :: sd :: tl)
    (h5 : pyIntChars sy = some y) (h6 : pyIntChars sm = some mo)
    (h7 : pyIntChars sd = some d)
    (h8 : mkDatetime y mo d (hour - 1) 0 0 = some dt)
    (hmw : rlookup row "mw" = some mv) (hna : pdNotna mv = true)
    (hfl : pyFloat mv = some q) :
    ∃ r, processRow fi row = some r ∧
      r.target_timestamp = Datetime.mk y mo d (hour - 1) 0 0 ∧
      r.hour = hour ∧ r.price = some q := by
  have h9 := computePrice_mw row mv q hmw hna hfl
  refine ⟨_, processRow_success fi row dstr hcell sy sm sd tl hour y mo d dt
    (some q) h1 h2 h3 h4 h5 h6 h7 h8 h9, ?_, rfl, rfl⟩
  exact mkDatetime_some _ _ _ _ _ _ dt h8

/-- Witness for C7: `date=2024-03-01, he=1, mw=45.2` (with a `kw` column also
holding a value) yields target 2024-03-01T00:00:00 and price 45.2. -/
theorem c7_witness :
    ∃ r, processRow
        ⟨"da", 20240115093000, ⟨2024, 1, 15, 9, 30, 0⟩,
         "NIPS.WVPA_da_price_forecast_20240115093000.csv"⟩
        [("date", PyVal.pstr "2024-03-01"), ("he", PyVal.pstr "1"),
         ("mw", PyVal.pnum 45.2), ("kw", PyVal.pnum 99)] = some r ∧
      r.target_timestamp = Datetime.mk 2024 3 1 0 0 0 ∧
      r.hour = 1 ∧ r.price = some 45.2 :=
  c7_structured_target_and_mw _ _ "2024-03-01" (PyVal.pstr "1") (PyVal.pnum 45.2)
    ['2', '0', '2', '4'] ['0', '3'] ['0', '1'] [] 1 2024 3 1 45.2
    ⟨2024, 3, 1, 0, 0, 0⟩ rfl rfl rfl rfl rfl rfl rfl rfl rfl rfl rfl

/-- C8 counterexample: this row's price value `"abc"` cannot be parsed as
numeric.  The claim says such a row is kept with a null price, but
`float(row['mw'])` raises inside the per-row handler and the row is dropped
entirely: the file yields no rows at all. -/
theorem c8_counterexample :
    process_csv_content (Except.ok [[("date", PyVal.pstr "2024-03-01"),
        ("he", PyVal.pstr "1"), ("mw", PyVal.pstr "abc")]])
      ⟨"da", 20240115093000, ⟨2024, 1, 15, 9, 30, 0⟩,
        "NIPS.WVPA_da_price_forecast_20240115093000.csv"⟩ = [] := rfl

/-- C8 (amended): a row is kept with a NULL price exactly when its value
columns are absent or NA: if `mw` and `kw` are each missing-or-NaN (and the
rest of the row parses), the row is kept with `price = none`; if instead a
present, non-NA `mw` value fails numeric parsing, `float(...)` raises inside
the per-row `try` and the row is dropped entirely. -/
theorem c8_amended_null_vs_drop :
    (∀ (fi : FileInfo) (row : Row) (dstr : String) (hcell : PyVal)
       (sy sm sd : List Char) (tl : List (List Char)) (hour y mo d : Int)
       (target : Datetime),
       rlookup row "date" = some (PyVal.pstr dstr) →
       rlookup row "he" = some hcell →
       pyInt hcell = some hour →
       splitOnDash dstr.toList = sy :: sm :: sd :: tl →
       pyIntChars sy = some y → pyIntChars sm = some mo →
       pyIntChars sd = some d →
       mkDatetime y mo d (hour - 1) 0 0 = some target →
       MissingOrNa row "mw" → MissingOrNa row "kw" →
       ∃ r, processRow fi row = some r ∧ r.price = none) ∧
    (∀ (fi : FileInfo) (row : Row) (mv : PyVal),
       rlookup row "mw" = some mv → pdNotna mv = true → pyFloat mv = none →
       processRow fi row = none) := by
  constructor
  · intro fi row dstr hcell sy sm sd tl hour y mo d target h1 h2 h3 h4 h5 h6 h7 h8 hmw hkw
    have h9 := computePrice_null row hmw hkw
    exact ⟨_, processRow_success fi row dstr hcell sy sm sd tl hour y mo d target
      none h1 h2 h3 h4 h5 h6 h7 h8 h9, rfl⟩
  · intro fi row mv hmw hna hfl
    exact processRow_none_of_price fi row (computePrice_raise row mv hmw hna hfl)

/-- Witness for the amended C8: a row with no value columns is kept with a
null price; a row with `mw = "abc"` is dropped. -/
theorem c8_amended_witness :
    (∃ r, processRow
        ⟨"da", 20240115093000, ⟨2024, 1, 15, 9, 30, 0⟩,
         "NIPS.WVPA_da_price_forecast_20240115093000.csv"⟩
        [("date", PyVal.pstr "2024-03-01"), ("he", PyVal.pstr "1")] = some r ∧
      r.price = none) ∧
    processRow
        ⟨"da", 20240115093000, ⟨2024, 1, 15, 9, 30, 0⟩,
         "NIPS.WVPA_da_price_forecast_20240115093000.csv"⟩
        [("date", PyVal.pstr "2024-03-01"), ("he", PyVal.pstr "1"),
         ("mw", PyVal.pstr "abc")] = none := by
  constructor
  · exact c8_amended_null_vs_drop.1 _ _ "2024-03-01" (PyVal.pstr "1")
      ['2', '0', '2', '4'] ['0', '3'] ['0', '1'] [] 1 2024 3 1
      ⟨2024, 3, 1, 0, 0, 0⟩ rfl rfl rfl rfl rfl rfl rfl rfl (Or.inl rfl) (Or.inl rfl)
  · exact c8_amended_null_vs_drop.2 _ _ (PyVal.pstr "abc") rfl rfl rfl

/-- C9: every `ForecastRow` produced from a file carries that file's
`version`, `forecast_timestamp` and `filename`. -/
theorem c9_rows_share_version_timestamp_filename (fi : FileInfo)
    (csv : Except Unit (List Row)) (r : ForecastRow)
    (h : r ∈ process_csv_content csv fi) :
    r.version = fi.version ∧ r.forecast_timestamp = fi.forecast_timestamp ∧
    r.filename = fi.filename := by
  cases csv with
  | error e => simp [process_csv_content] at h
  | ok rows =>
    simp only [process_csv_content, List.mem_filterMap] at h
    obtain ⟨row, hrow, hpr⟩ := h
    obtain ⟨_, h2, h3, h4⟩ := processRow_shape fi row r hpr
    exact ⟨h3, h2, h4⟩

/-- Witness for C9 on a one-row file. -/
theorem c9_witness :
    (ForecastRow.mk ⟨2024, 3, 1, 1, 0, 0⟩ 2 none none none none "NIPS.WVPA"
        ⟨2024, 1, 15, 9, 30, 0⟩ 20240115093000
        "NIPS.WVPA_da_price_forecast_20240115093000.csv").version =
      (FileInfo.mk "da" 20240115093000 ⟨2024, 1, 15, 9, 30, 0⟩
        "NIPS.WVPA_da_price_forecast_20240115093000.csv").version ∧
    (ForecastRow.mk ⟨2024, 3, 1, 1, 0, 0⟩ 2 none none none none "NIPS.WVPA"
        ⟨2024, 1, 15, 9, 30, 0⟩ 20240115093000
        "NIPS.WVPA_da_price_forecast_20240115093000.csv").forecast_timestamp =
      (FileInfo.mk "da" 20240115093000 ⟨2024, 1, 15, 9, 30, 0⟩
        "NIPS.WVPA_da_price_forecast_20240115093000.csv").forecast_timestamp ∧
    (ForecastRow.mk ⟨2024, 3, 1, 1, 0, 0⟩ 2 none none none none "NIPS.WVPA"
        ⟨2024, 1, 15, 9, 30, 0⟩ 20240115093000
        "NIPS.WVPA_da_price_forecast_20240115093000.csv").filename =
      (FileInfo.mk "da" 20240115093000 ⟨2024, 1, 15, 9, 30, 0⟩
        "NIPS.WVPA_da_price_forecast_20240115093000.csv").filename := by
  have hp : process_csv_content
      (Except.ok [[("date", PyVal.pstr "2024-03-01"), ("he", PyVal.pstr "2")]])
      (FileInfo.mk "da" 20240115093000 ⟨2024, 1, 15, 9, 30, 0⟩
        "NIPS.WVPA_da_price_forecast_20240115093000.csv") =
      [ForecastRow.mk ⟨2024, 3, 1, 1, 0, 0⟩ 2 none none none none "NIPS.WVPA"
        ⟨2024, 1, 15, 9, 30, 0⟩ 20240115093000
        "NIPS.WVPA_da_price_forecast_20240115093000.csv"] := rfl
  exact c9_rows_share_version_timestamp_filename _ _ _
    (by rw [hp]; exact List.mem_singleton_self _)

/-- C10: a produced row's location is the constant `NIPS.WVPA` when the row
has no `node` column, and is the stringified `node` value when it has one
(column names having been lowercased at scraper.py line 316 before the row
loop runs). -/
theorem c10_location_default_and_node (fi : FileInfo) (row : Row)
    (r : ForecastRow) (h : processRow fi row = some r) :
    (rlookup row "node" = none → r.location = "NIPS.WVPA") ∧
    (∀ v, rlookup row "node" = some v → r.location = pyStr v) := by
  obtain ⟨hloc, _, _, _⟩ := processRow_shape fi row r h
  constructor
  · intro hn
    rw [hloc]
    simp [locOf, hn]
  · intro v hn
    rw [hloc]
    simp [locOf, hn]

/-- Witness for C10: one row without a `node` column gets the default
location, one row with `node = "HUB.X"` gets that value. -/
theorem c10_witness :
    (ForecastRow.mk ⟨2024, 3, 1, 2, 0, 0⟩ 3 none none none none "NIPS.WVPA"
        ⟨2024, 1, 15, 9, 30, 0⟩ 20240115093000
        "NIPS.WVPA_da_price_forecast_20240115093000.csv").location =
      "NIPS.WVPA" ∧
    (ForecastRow.mk ⟨2024, 3, 1, 2, 0, 0⟩ 3 none none none none "HUB.X"
        ⟨2024, 1, 15, 9, 30, 0⟩ 20240115093000
        "NIPS.WVPA_da_price_forecast_20240115093000.csv").location =
      "HUB.X" := by
  constructor
  · exact (c10_location_default_and_node
      (FileInfo.mk "da" 20240115093000 ⟨2024, 1, 15, 9, 30, 0⟩
        "NIPS.WVPA_da_price_forecast_20240115093000.csv")
      [("date", PyVal.pstr "2024-03-01"), ("he", PyVal.pstr "3")] _ rfl).1 rfl
  · exact (c10_location_default_and_node
      (FileInfo.mk "da" 20240115093000 ⟨2024, 1, 15, 9, 30, 0⟩
        "NIPS.WVPA_da_price_forecast_20240115093000.csv")
      [("date", PyVal.pstr "2024-03-01"), ("he", PyVal.pstr "3"),
       ("node", PyVal.pstr "HUB.X")] _ rfl).2 (PyVal.pstr "HUB.X") rfl

/-- A file dict as returned by `scan_files` (scraper.py lines 100-108):
`{filename, type, version}`. -/
structure ScanFile where
  filename : String
  ftype : String
  version : String
deriving DecidableEq

/-- Downloaded bytes, abstracted to what the orchestrator consumes: their
length (`len(content)`, scraper.py lines 410 and 428) and the outcome of
`pd.read_csv` on them once written to the temp file (scraper.py line 314). -/
structure Content where
  size : Nat
  csv : Except Unit (List Row)

/-- Environment-supplied outcomes of one file's external interactions: the
three download strategies of scraper.py lines 396-404 (each may raise —
`Except.error` — or return bytes or `None`), and whether each of the three
store calls (upsert, success-record insert, failed-record insert) succeeds
or raises. -/
structure FileEnv where
  directClick : Except Unit (Option Content)
  jsDownload : Except Unit (Option Content)
  fetchDownload : Except Unit (Option Content)
  upsertOk : Bool
  insertSuccessOk : Bool
  insertFailedOk : Bool

/-- Python truthiness of `content` (`if not content:`): `None` and empty
byte strings are falsy. -/
def contentTruthy : Option Content → Bool
  | none => false
  | some c => c.size != 0

/-- The strategy cascade of scraper.py lines 393-404: method 2 runs only when
method 1's result is falsy, method 3 only when method 2's is. -/
def acquireCascade (env : FileEnv) : Except Unit (Option Content) :=
  match env.directClick with
  | Except.error e => Except.error e
  | Except.ok c1 =>
    if contentTruthy c1 then Except.ok c1
    else
      match env.jsDownload with
      | Except.error e => Except.error e
      | Except.ok c2 =>
        if contentTruthy c2 then Except.ok c2 else env.fetchDownload

/-- A `processed_files` ledger row (scraper.py lines 425-431 and 442-447);
the failure-path insert supplies no `file_size_bytes`. -/
structure LedgerRecord where
  filename : String
  file_type : String
  file_size_bytes : Option Nat
  row_count : Nat
  import_status : String
deriving DecidableEq

/-- One store interaction performed by the loop body: the forecast-table
upsert with its conflict key (scraper.py lines 420-423) or a ledger insert
(lines 425-431, 442-447). -/
inductive StoreEffect where
  | upsert (table : String) (conflictKey : String) (rows : List ForecastRow)
  | insertLedger (rec : LedgerRecord)
deriving DecidableEq

/-- The failure-path ledger record (scraper.py lines 442-447):
`file_to_process.get('type', 'unknown')`, status `failed`, `row_count` 0. -/
def failedRecord (f : ScanFile) : LedgerRecord :=
  ⟨f.filename, f.ftype, none, 0, "failed"⟩

/-- The body of the per-file `try` (scraper.py lines 388-435): returns the
store effects that completed and whether an exception escaped to the
per-file handler.  Mirrors the source:  run the cascade; `continue` with no
effects if the result is falsy (line 406-408, note: no ledger write);
`parse_filename` may raise (line 413; a `None` identity also raises, as
`{**None}` is a `TypeError`); normalize; if no rows, only print (line 435);
otherwise upsert then insert the success record, each call able to raise. -/
def processFileBody (env : FileEnv) (f : ScanFile) : List StoreEffect × Bool :=
  match acquireCascade env with
  | Except.error _ => ([], true)
  | Except.ok none => ([], false)
  | Except.ok (some c) =>
    if c.size = 0 then ([], false)
    else
      match parse_filename f.filename.toList with
      | Except.error _ => ([], true)
      | Except.ok none => ([], true)
      | Except.ok (some fid) =>
        let rows := process_csv_content c.csv
          ⟨fid.ftype, fid.version, fid.forecast_timestamp, f.filename⟩
        if rows = [] then ([], false)
        else
          let table := if fid.ftype = "da" then "da_price_forecasts"
            else "rt_price_forecasts"
          if env.upsertOk = false then ([], true)
          else if env.insertSuccessOk = false then
            ([StoreEffect.upsert table "target_timestamp,version,location,hour" rows],
             true)
          else
            ([StoreEffect.upsert table "target_timestamp,version,location,hour" rows,
              StoreEffect.insertLedger
                ⟨f.filename, fid.ftype, some c.size, rows.length, "success"⟩],
             false)

/-- One iteration of the per-file loop with its `try/except` (scraper.py
lines 387-449): on an exception the failed-record insert is attempted inside
its own `try/except: pass`, and the loop continues either way. -/
def processOneFile (env : FileEnv) (f : ScanFile) : List StoreEffect :=
  match processFileBody env f with
  | (effs, false) => effs
  | (effs, true) =>
    effs ++ (if env.insertFailedOk then [StoreEffect.insertLedger (failedRecord f)]
      else [])

/-- The loop over `new_files` (scraper.py line 387), as the concatenated
trace of store effects. -/
def run_batch (envOf : ScanFile → FileEnv) : List ScanFile → List StoreEffect
  | [] => []
  | f :: rest => processOneFile (envOf f) f ++ run_batch envOf rest

/-- `new_files = [f for f in all_files if f['filename'] not in processed]`
(scraper.py line 379) followed by the loop. -/
def main_run (envOf : ScanFile → FileEnv) (allFiles : List ScanFile)
    (processed : List String) : List StoreEffect :=
  run_batch envOf (allFiles.filter (fun f => !processed.contains f.filename))

/-- Filenames for which some ledger record was inserted during a run. -/
def ledgeredFilenames (tr : List StoreEffect) : List String :=
  tr.filterMap (fun e =>
    match e with
    | StoreEffect.insertLedger rec => some rec.filename
    | StoreEffect.upsert _ _ _ => none)

theorem run_batch_append (envOf : ScanFile → FileEnv) (l1 l2 : List ScanFile) :
    run_batch envOf (l1 ++ l2) = run_batch envOf l1 ++ run_batch envOf l2 := by
  induction l1 with
  | nil => simp [run_batch]
  | cons f fs ih => simp [run_batch, ih]

/-- C2: per-file failure isolation.  The batch trace always decomposes file
by file — whatever one file's body does (including raising at any point:
acquisition, filename parsing, normalization, upsert or ledger write), the
files before and after it are processed exactly the same — and when a file's
body raises and the ledger insert is possible, a `failed` record for that
file is in its segment of the trace. -/
theorem c2_per_file_failure_isolation (envOf : ScanFile → FileEnv)
    (pre post : List ScanFile) (f : ScanFile) :
    run_batch envOf (pre ++ f :: post) =
      run_batch envOf pre ++ processOneFile (envOf f) f ++ run_batch envOf post ∧
    ((processFileBody (envOf f) f).2 = true → (envOf f).insertFailedOk = true →
      StoreEffect.insertLedger (failedRecord f) ∈ processOneFile (envOf f) f) := by
  constructor
  · rw [run_batch_append]
    simp [run_batch]
  · intro hraise hins
    rcases hb : processFileBody (envOf f) f with ⟨effs, flag⟩
    rw [hb] at hraise
    simp only at hraise
    subst hraise
    unfold processOneFile
    rw [hb]
    simp [hins]

/-- Witness for C2: a file whose first download strategy raises gets a
`failed` ledger record. -/
theorem c2_witness :
    StoreEffect.insertLedger
        (failedRecord ⟨"NIPS.WVPA_da_price_forecast_20240115093000.csv", "da",
          "20240115093000"⟩) ∈
      processOneFile
        ⟨Except.error (), Except.ok none, Except.ok none, true, true, true⟩
        ⟨"NIPS.WVPA_da_price_forecast_20240115093000.csv", "da",
          "20240115093000"⟩ :=
  (c2_per_file_failure_isolation
    (fun _ => ⟨Except.error (), Except.ok none, Except.ok none, true, true, true⟩)
    [] []
    ⟨"NIPS.WVPA_da_price_forecast_20240115093000.csv", "da", "20240115093000"⟩).2
    rfl rfl

/-- C1 counterexample: with every download strategy returning null for the
single new file, the run continues (the loop finishes normally) but the
effect trace is empty: no ledger record at all — in particular no `failed`
record — is written for the exhausted file, contradicting the claim; nothing
marks the file as processed for later runs. -/
theorem c1_counterexample :
    run_batch
      (fun _ => ⟨Except.ok none, Except.ok none, Except.ok none, true, true, true⟩)
      [⟨"NIPS.WVPA_da_price_forecast_20240115093000.csv", "da",
        "20240115093000"⟩] = [] := rfl

/-- C1 (amended): when every strategy returns null, the run does continue to
the next file, but NO ledger record is written for the exhausted filename —
the `continue` at scraper.py line 408 skips the whole store section, and the
failed-record insert runs only in the exception handler — so the file is not
recorded and a later run will see it as new again. -/
theorem c1_amended_no_ledger_on_exhaustion (env : FileEnv) (f : ScanFile)
    (envOf : ScanFile → FileEnv) (rest : List ScanFile)
    (h1 : env.directClick = Except.ok none)
    (h2 : env.jsDownload = Except.ok none)
    (h3 : env.fetchDownload = Except.ok none) (hf : envOf f = env) :
    processOneFile env f = [] ∧
    run_batch envOf (f :: rest) = run_batch envOf rest := by
  have hacq : acquireCascade env = Except.ok none := by
    simp [acquireCascade, h1, h2, h3, contentTruthy]
  have hbody : processFileBody env f = ([], false) := by
    simp [processFileBody, hacq]
  have hone : processOneFile env f = [] := by
    simp [processOneFile, hbody]
  exact ⟨hone, by simp [run_batch, hf, hone]⟩

/-- Witness for the amended C1. -/
theorem c1_amended_witness :
    processOneFile
        ⟨Except.ok none, Except.ok none, Except.ok none, true, true, true⟩
        ⟨"NIPS.WVPA_rt_price_forecast_20240115093000.csv", "rt",
          "20240115093000"⟩ = [] ∧
    run_batch
        (fun _ => ⟨Except.ok none, Except.ok none, Except.ok none, true, true, true⟩)
        [⟨"NIPS.WVPA_rt_price_forecast_20240115093000.csv", "rt",
          "20240115093000"⟩] =
      run_batch
        (fun _ => ⟨Except.ok none, Except.ok none, Except.ok none, true, true, true⟩)
        [] :=
  c1_amended_no_ledger_on_exhaustion _ _ _ [] rfl rfl rfl rfl

/-- C6 counterexample: acquisition succeeds (5 bytes) for the single new
file and normalization yields zero rows, yet the effect trace is empty —
no ledger record, in particular no `failed` record, is written; the
zero-row branch only prints (scraper.py line 435). -/
theorem c6_counterexample :
    run_batch
      (fun _ => ⟨Except.ok (some ⟨5, Except.ok []⟩), Except.ok none,
        Except.ok none, true, true, true⟩)
      [⟨"NIPS.WVPA_da_price_forecast_20240301000000.csv", "da",
        "20240301000000"⟩] = [] := rfl

/-- C6 (amended): an acquired, non-empty, identifiable file whose
normalization yields zero rows produces NO store effect at all — no upsert
and no ledger record of any status — and the run simply continues; the file
is not marked as processed. -/
theorem c6_amended_zero_rows_no_ledger (env : FileEnv) (f : ScanFile)
    (c : Content) (fid : FileIdentity)
    (hacq : acquireCascade env = Except.ok (some c)) (hsz : c.size ≠ 0)
    (hparse : parse_filename f.filename.toList = Except.ok (some fid))
    (hrows : process_csv_content c.csv
      ⟨fid.ftype, fid.version, fid.forecast_timestamp, f.filename⟩ = []) :
    processOneFile env f = [] := by
  have hparse2 : parse_filename f.filename.data = Except.ok (some fid) := hparse
  have hbody : processFileBody env f = ([], false) := by
    simp [processFileBody, hacq, hsz, hparse, hparse2, hrows]
  simp [processOneFile, hbody]

/-- Witness for the amended C6. -/
theorem c6_amended_witness :
    processOneFile
        ⟨Except.ok (some ⟨7, Except.ok []⟩), Except.ok none, Except.ok none,
          true, true, true⟩
        ⟨"NIPS.WVPA_rt_price_forecast_20240301000000.csv", "rt",
          "20240301000000"⟩ = [] :=
  c6_amended_zero_rows_no_ledger _ _ ⟨7, Except.ok []⟩
    ⟨"rt", 20240301000000, ⟨2024, 3, 1, 0, 0, 0⟩⟩ rfl (by decide) rfl rfl
